import Mathlib

/-!
Verification of the tpwsn firmwares (ERTS 2020): a shallow embedding of the
Trickle token-consistency firmware (`src/firmware/trickle/tpwsn-trickle.c`)
and the random-multihop firmware (`src/firmware/rmh/tpwsn-rmh.c`), together
with proofs about the embedded handlers.

Machine integers are modelled as `Nat`/`Int` with explicit modular reduction
where the C code relies on wraparound; C timers (`etimer`) are modelled as an
`Option Int` holding the absolute expiry instant; the single-threaded Contiki
event handlers become pure state-transition functions.
-/

namespace Tpwsn

/-! ## Serial-number token arithmetic (trickle firmware, tcpip_handler)

The C code compares the one-byte tokens with
`(signed char) (token - ((uint8_t *) uip_appdata)[0]) < 0`
(i.e. the 8-bit difference local − peer reinterpreted as a signed byte).
-/

/-- Reinterpret an integer's low 8 bits as a signed 8-bit value, the effect of
the C cast `(signed char) x` applied to an `int`. -/
def signed8 (x : Int) : Int :=
  if x % 256 < 128 then x % 256 else x % 256 - 256

/-- The relation the receive handler actually uses (tpwsn-trickle.c line 116):
`a` (e.g. the peer's token) is newer than `b` (e.g. the local token) exactly
when `(signed char)(b - a) < 0`. -/
def token_newer (a b : Nat) : Bool :=
  decide (signed8 ((b : Int) - (a : Int)) < 0)

/-- The "newer" rule exactly as the specification words it (spec §3): `a` is
newer than `b` iff the signed difference `(a − b) mod 256`, interpreted as a
signed 8-bit value, is negative. Stated from the spec's words only, for
comparison with `token_newer`. -/
def newer_spec (a b : Nat) : Bool :=
  decide (signed8 ((a : Int) - (b : Int)) < 0)

/-! ## Trickle timer engine

Modelled from the spec: the Trickle Timer Engine of spec §4.1
(`configure`/`start`, `signal_consistent`, `signal_inconsistent`, `reset`,
interval expiry). Its implementation, Contiki's `lib/trickle-timer.c`, is not
under `src/`; only its callers are. Interval state only — the scheduled
transmission instant `t` is drawn randomly and does not affect `i_cur`. -/

/-- Trickle engine state: configuration `imin`, `imax` (number of doublings),
redundancy constant `k`, plus the current interval `i_cur` and the
consistency counter `c`. -/
structure TrickleTimer where
  imin : Nat
  imax : Nat
  k : Nat
  i_cur : Nat
  c : Nat
deriving DecidableEq

/-- Events the Trickle engine reacts to. -/
inductive TEvent
  | consistent
  | inconsistent
  | resetEvent
  | expire
deriving DecidableEq

/-- `start`: begin with `i_cur = i_min`, `c = 0` (spec §4.1). -/
def ttStart (imin imax k : Nat) : TrickleTimer :=
  ⟨imin, imax, k, imin, 0⟩

/-- One engine transition (spec §4.1): a consistency signal increments `c`;
an inconsistency or an external reset collapses the interval to `i_min`; at
interval end the interval doubles, capped at `i_min * 2 ^ i_max_doublings`. -/
def ttStep (s : TrickleTimer) : TEvent → TrickleTimer
  | TEvent.consistent => { s with c := s.c + 1 }
  | TEvent.inconsistent => { s with i_cur := s.imin, c := 0 }
  | TEvent.resetEvent => { s with i_cur := s.imin, c := 0 }
  | TEvent.expire =>
      { s with i_cur := min (2 * s.i_cur) (s.imin * 2 ^ s.imax), c := 0 }

/-! ## Token consistency protocol (trickle firmware: tcpip_handler, trickle_tx) -/

/-- A signal issued to the Trickle engine by the receive handler. -/
inductive Sig
  | consistent
  | inconsistent
deriving DecidableEq

/-- Per-node state read and written by `tcpip_handler` / `trickle_tx`:
the one-byte token, the sink role flag, the operator suppression flag, the
engine state, plus the trace of signals issued and of log lines printed. -/
structure TNode where
  token : Nat
  is_sink : Bool
  suppress_trickle : Bool
  tt : TrickleTimer
  signals : List Sig
  log : List String

/-- `tcpip_handler` (tpwsn-trickle.c lines 96-136) for a packet whose first
payload byte is `p`: log the reception (the sink role changes only the log
line), then compare tokens. Equal tokens signal consistency; otherwise the
peer's token is adopted exactly when it is newer (`token_newer`), and an
inconsistency is signalled either way. -/
def tcpip_handler (n : TNode) (p : Nat) : TNode :=
  let n1 :=
    if n.is_sink then { n with log := n.log ++ ["sink-recv"] }
    else { n with log := n.log ++ ["node-recv"] }
  if n1.token == p then
    { n1 with
      tt := ttStep n1.tt TEvent.consistent
      signals := n1.signals ++ [Sig.consistent]
      log := n1.log ++ ["consistent-rx"] }
  else
    let n2 :=
      if token_newer p n1.token then
        { n1 with token := p, log := n1.log ++ ["theirs-newer-update"] }
      else
        { n1 with log := n1.log ++ ["they-are-behind"] }
    { n2 with
      tt := ttStep n2.tt TEvent.inconsistent
      signals := n2.signals ++ [Sig.inconsistent]
      log := n2.log ++ ["inconsistency"] }

/-- Modelled from the spec: the suppression status codes the engine passes to
the transmission callback; their header `lib/trickle-timer.h` is not under
`src/`. Only `= / ≠ TRICKLE_TIMER_TX_SUPPRESS` matters to the firmware. -/
def TRICKLE_TIMER_TX_SUPPRESS : Nat := 0

/-- Status code for a go-ahead from the engine (see
`TRICKLE_TIMER_TX_SUPPRESS`). -/
def TRICKLE_TIMER_TX_OK : Nat := 1

/-- `trickle_tx` (tpwsn-trickle.c lines 139-167): return early (no
transmission) when the engine suppresses or the operator suppression flag is
set, otherwise send the current token as the one-byte payload. `some payload`
models a transmission, `none` a suppressed callback. -/
def trickle_tx (n : TNode) (suppressArg : Nat) : Option Nat :=
  if suppressArg == TRICKLE_TIMER_TX_SUPPRESS || n.suppress_trickle then none
  else some n.token

/-- The protocol-visible part of a node's state: token, operator suppression,
engine state and signal trace — everything except the role flags and the log. -/
def obs (n : TNode) : Nat × Bool × TrickleTimer × List Sig :=
  (n.token, n.suppress_trickle, n.tt, n.signals)

/-! ## Serial command handling (trickle firmware: serial_handler)

The command line arrives as the `strtok`-tokenised list of whitespace
separated words. Contiki's `CLOCK_SECOND` (clock ticks per second) is an
external platform constant; 128 is its value on the sky motes the firmware
targets. Timers (`etimer_set`) are modelled by the absolute expiry instant
`now + interval`. -/

/-- Clock ticks per second (external Contiki constant). -/
def CLOCK_SECOND : Int := 128

/-- Accumulate leading decimal digits, as C `strtol` does after the sign. -/
def strtolLoop : List Char → Int → Int
  | [], acc => acc
  | c :: cs, acc =>
      if c.isDigit then strtolLoop cs (acc * 10 + ((c.toNat - 48 : Nat) : Int))
      else acc

/-- C `strtol(s, _, 10)`: an optional sign followed by decimal digits; a
string with no leading digits parses to 0. -/
def strtol (s : String) : Int :=
  match s.data with
  | '-' :: cs => - strtolLoop cs 0
  | '+' :: cs => strtolLoop cs 0
  | cs => strtolLoop cs 0

/-- The local flags of `serial_handler` (tpwsn-trickle.c lines 186-278). -/
structure SFlags where
  seen_sleep : Bool
  seen_set : Bool
  seen_init : Bool
  seen_imin : Bool
  seen_imax : Bool
  seen_cost : Bool
  seen_limit : Bool
  seen_print : Bool
  delay : Int
deriving DecidableEq

/-- All flags false, delay 0, as at the top of `serial_handler`. -/
def initSFlags : SFlags :=
  ⟨false, false, false, false, false, false, false, false, 0⟩

/-- The global state of the trickle firmware touched by `serial_handler` and
`trickle_init`: the Trickle configuration variables, the token, role and
suppression flags, the restart machinery (`rt` holds the absolute expiry of
the restart etimer) and the configuration last handed to the engine by
`trickle_timer_config`. -/
structure SNode where
  imax : Int
  imin : Int
  redundancy_const : Int
  msg_limit : Int
  token : Nat
  suppress_trickle : Bool
  is_sink : Bool
  is_source : Bool
  reset_scheduled : Bool
  radio_on : Bool
  leds_all : Bool
  rt : Option Int
  tt_imin : Int
  tt_imax : Int
  tt_k : Int
deriving DecidableEq

/-- `trickle_init` (tpwsn-trickle.c lines 170-183): zero the token, clear the
operator suppression and reconfigure the engine from the current globals
(`trickle_timer_config(&tt, imin, imax, redundancy_const)`). -/
def trickle_init (n : SNode) : SNode :=
  { n with
    token := 0
    suppress_trickle := false
    tt_imin := n.imin
    tt_imax := n.imax
    tt_k := n.redundancy_const }

/-- The firmware's state right after boot (`AUTOSTART` ran `trickle_init`
with the compile-time defaults imin=16, imax=10, k=2, msg_limit=1). -/
def initSNode : SNode :=
  { imax := 10, imin := 16, redundancy_const := 2, msg_limit := 1
    token := 0, suppress_trickle := false, is_sink := false, is_source := false
    reset_scheduled := false, radio_on := true, leds_all := false, rt := none
    tt_imin := 16, tt_imax := 10, tt_k := 2 }

/-- The token loop of `serial_handler` (tpwsn-trickle.c lines 200-267),
one C `while` iteration per list element, reproducing the flag updates, the
`break` once all three `init` numbers were consumed, and the always-true
`strcmp(ptr, "set")` quirk (any token other than the literal `set` switches
`seen_set` on). -/
def serialTok : SNode → SFlags → List String → SNode × SFlags
  | n, f, [] => (n, f)
  | n, f, ptr :: rest =>
    let f1 := if ptr == "init" then { f with seen_init := true } else f
    if f1.seen_init && f1.seen_imax && f1.seen_imin && f1.seen_cost then
      (n, f1)
    else
      let step2 : SNode × SFlags :=
        if f1.seen_init then
          if f1.seen_imin && f1.seen_imax then
            ({ n with redundancy_const := strtol ptr }, { f1 with seen_cost := true })
          else if !f1.seen_imax && !f1.seen_imin then
            ({ n with imax := strtol ptr }, { f1 with seen_imax := true })
          else if f1.seen_imax && !f1.seen_imin then
            ({ n with imin := strtol ptr }, { f1 with seen_imin := true })
          else (n, f1)
        else (n, f1)
      let n2 := step2.1
      let f2 := step2.2
      let f3 := if ptr == "limit" then { f2 with seen_limit := true } else f2
      let n3 := if f3.seen_limit then { n2 with msg_limit := strtol ptr } else n2
      let f4 := if ptr == "print" then { f3 with seen_print := true } else f3
      let n4 :=
        if f4.seen_print then { n3 with radio_on := false, suppress_trickle := true }
        else n3
      let f5 := if ptr == "sleep" then { f4 with seen_sleep := true } else f4
      let f6 := if f5.seen_sleep then { f5 with delay := strtol ptr } else f5
      let f7 := if ptr == "set" then f6 else { f6 with seen_set := true }
      let n5 :=
        if f7.seen_set then
          if ptr == "sink" then trickle_init { n4 with is_sink := true }
          else if ptr == "source" then trickle_init { n4 with is_source := true }
          else n4
        else n4
      serialTok n5 f7 rest

/-- `serial_handler` (tpwsn-trickle.c lines 186-278) at time `now`: run the
token loop, then, when a positive sleep delay was parsed, switch the radio
off, arm the one-shot restart etimer for `delay * CLOCK_SECOND` from now,
suppress trickle transmissions, mark the reset as scheduled and light the
LEDs. -/
def serial_handler (n : SNode) (now : Int) (line : List String) : SNode :=
  let r := serialTok n initSFlags line
  if r.2.seen_sleep ∧ 0 < r.2.delay then
    { r.1 with
      radio_on := false
      rt := some (now + r.2.delay * CLOCK_SECOND)
      suppress_trickle := true
      reset_scheduled := true
      leds_all := true }
  else r.1

/-! ## Rmh firmware: neighbor table, forwarding, restart -/

/-- A Rime link address (`linkaddr_t`): two bytes. -/
abbrev Addr := Nat × Nat

/-- `NEIGHBOR_TIMEOUT` (tpwsn-rmh.c line 105), in clock ticks. -/
def NEIGHBOR_TIMEOUT : Int := 60 * CLOCK_SECOND

/-- `MAX_NEIGHBORS` (tpwsn-rmh.c line 106): the `MEMB` pool capacity. -/
def MAX_NEIGHBORS : Nat := 16

/-- The lookup loop of `received_announcement` (tpwsn-rmh.c lines 146-152):
walk the table; on the first entry whose address equals `src`, re-arm that
entry's expiry ctimer (to absolute instant `exp`) and stop. `none` means the
loop fell off the end without a match. -/
def refreshLoop : List (Addr × Int) → Addr → Int → Option (List (Addr × Int))
  | [], _, _ => none
  | e :: rest, src, exp =>
    if e.1 = src then some ((e.1, exp) :: rest)
    else
      match refreshLoop rest src exp with
      | some r => some (e :: r)
      | none => none

/-- `received_announcement` (tpwsn-rmh.c lines 134-163): refresh the expiry
timer of an already-present sender, else allocate from the bounded pool
(`memb_alloc` succeeds exactly while fewer than `MAX_NEIGHBORS` entries are
live) and append (`list_add`) a fresh entry; on pool exhaustion the
announcement is dropped and the table is left unchanged. -/
def received_announcement (now : Int) (src : Addr) (t : List (Addr × Int)) :
    List (Addr × Int) :=
  match refreshLoop t src (now + NEIGHBOR_TIMEOUT) with
  | some r => r
  | none =>
      if t.length < MAX_NEIGHBORS then t ++ [(src, now + NEIGHBOR_TIMEOUT)]
      else t

/-- The selection walk of `forward` (tpwsn-rmh.c lines 203-205):
`for(n = list_head(..); n != NULL && i != num; n = n->next) ++i`. -/
def walkTo : List (Addr × Int) → Nat → Option (Addr × Int)
  | [], _ => none
  | e :: _, 0 => some e
  | _ :: rest, i + 1 => walkTo rest i

/-- `forward` (tpwsn-rmh.c lines 186-217) with `r` the value returned by
`random_rand()`: with a nonempty neighbor table, walk to entry number
`r % list_length(neighbor_table)` and return its address; with an empty
table return `NULL` (`none`), telling the multihop layer to drop the
packet. -/
def forward (t : List (Addr × Int)) (r : Nat) : Option Addr :=
  if 0 < t.length then
    match walkTo t (r % t.length) with
    | some e => some e.1
    | none => none
  else none

/-- The rmh firmware's global state: the neighbor table (address plus expiry
instant of its ctimer), the restart machinery, the connection/announcement
registrations and the coverage data buffer. -/
structure RNode where
  neighbor_table : List (Addr × Int)
  reset_scheduled : Bool
  radio_on : Bool
  multihop_conn : Bool
  announcement_registered : Bool
  data_buf : Option (List Nat)
  rt : Option Int
deriving DecidableEq

/-- `reset` (tpwsn-rmh.c lines 221-259): everything — stopping the ctimers,
chopping the table, closing the connection, removing the announcement,
clearing the data buffer, switching the radio off and arming the restart
etimer — sits inside `if(list_length(neighbor_table) > 0)`; with an empty
table the function does nothing at all. -/
def reset (now restart_delay : Int) (m : RNode) : RNode :=
  if 0 < m.neighbor_table.length then
    { m with
      neighbor_table := []
      multihop_conn := false
      announcement_registered := false
      data_buf := none
      radio_on := false
      reset_scheduled := true
      rt := some (now + restart_delay * CLOCK_SECOND) }
  else m

/-- Local flags of the rmh `serial_handler` (tpwsn-rmh.c lines 293-331). -/
structure RFlags where
  seen_sleep : Bool
  seen_print : Bool
  delay : Int
deriving DecidableEq

/-- All flags false, delay 0. -/
def initRFlags : RFlags := ⟨false, false, 0⟩

/-- The token loop of the rmh `serial_handler` (tpwsn-rmh.c lines 302-325). -/
def rmhTok : RNode → RFlags → List String → RNode × RFlags
  | m, f, [] => (m, f)
  | m, f, ptr :: rest =>
    let f1 := if ptr == "sleep" then { f with seen_sleep := true } else f
    let f2 := if f1.seen_sleep then { f1 with delay := strtol ptr } else f1
    let f3 := if ptr == "print" then { f2 with seen_print := true } else f2
    let m1 :=
      if f3.seen_print then
        { m with radio_on := false, multihop_conn := false,
                 announcement_registered := false }
      else m
    rmhTok m1 f3 rest

/-- The rmh `serial_handler` (tpwsn-rmh.c lines 293-331) at time `now`: run
the token loop; when a positive sleep delay was parsed, call
`reset(delay)`. -/
def rmh_serial_handler (m : RNode) (now : Int) (line : List String) : RNode :=
  let r := rmhTok m initRFlags line
  if r.2.seen_sleep ∧ 0 < r.2.delay then reset now r.2.delay r.1 else r.1

/-! ## Selection-frequency counters for `forward` -/

/-- How many of the `random_rand()` values `0, 1, …, m-1` satisfy
`r % n = k`. -/
def modCount (n k : Nat) : Nat → Nat
  | 0 => 0
  | m + 1 => modCount n k m + (if m % n = k then 1 else 0)

/-- How many of the `random_rand()` values `0, 1, …, m-1` make `forward`
pick the neighbor with address `a`. `random_rand()` returns a 16-bit value,
so `selCount t a 65536` counts selections over its whole uniform range. -/
def selCount (t : List (Addr × Int)) (a : Addr) : Nat → Nat
  | 0 => 0
  | m + 1 => selCount t a m + (if forward t m = some a then 1 else 0)

/-! ## Trickle engine invariant (claim C3) -/

/-- The engine invariant: configuration fields are stable, and the interval
stays between `i_min` and `i_min * 2 ^ i_max_doublings`. -/
def ttInv (imin imax : Nat) (s : TrickleTimer) : Prop :=
  s.imin = imin ∧ s.imax = imax ∧ imin ≤ s.i_cur ∧ s.i_cur ≤ imin * 2 ^ imax

theorem ttStep_inv {imin imax : Nat} {s : TrickleTimer} (e : TEvent)
    (h : ttInv imin imax s) : ttInv imin imax (ttStep s e) := by
  obtain ⟨h1, h2, h3, h4⟩ := h
  have hcap : imin ≤ imin * 2 ^ imax :=
    Nat.le_mul_of_pos_right _ (Nat.two_pow_pos _)
  cases e with
  | consistent => exact ⟨h1, h2, h3, h4⟩
  | inconsistent => exact ⟨h1, h2, h1.ge, h1.trans_le hcap⟩
  | resetEvent => exact ⟨h1, h2, h1.ge, h1.trans_le hcap⟩
  | expire =>
    refine ⟨h1, h2, ?_, ?_⟩
    · show imin ≤ min (2 * s.i_cur) (s.imin * 2 ^ s.imax)
      refine le_min (by omega) ?_
      rw [h1, h2]; exact hcap
    · show min (2 * s.i_cur) (s.imin * 2 ^ s.imax) ≤ imin * 2 ^ imax
      rw [h1, h2]; exact min_le_right _ _

theorem ttFoldl_inv {imin imax : Nat} :
    ∀ (evs : List TEvent) (s : TrickleTimer), ttInv imin imax s →
      ttInv imin imax (evs.foldl ttStep s)
  | [], _, h => h
  | e :: evs, s, h => ttFoldl_inv evs (ttStep s e) (ttStep_inv e h)

/-- Claim C3: for every configuration `(i_min, i_max_doublings)` (and any
`k`) and every sequence of consistency signals, inconsistency signals,
external resets and interval expiries, the current interval of the Trickle
engine satisfies `i_min ≤ i_cur ≤ i_min * 2 ^ i_max_doublings`. -/
theorem trickle_interval_bounds (imin imax k : Nat) (evs : List TEvent) :
    imin ≤ (evs.foldl ttStep (ttStart imin imax k)).i_cur ∧
      (evs.foldl ttStep (ttStart imin imax k)).i_cur ≤ imin * 2 ^ imax := by
  have h0 : ttInv imin imax (ttStart imin imax k) :=
    ⟨rfl, rfl, le_refl _, Nat.le_mul_of_pos_right _ (Nat.two_pow_pos _)⟩
  have h := ttFoldl_inv evs _ h0
  exact ⟨h.2.2.1, h.2.2.2⟩

/-! ## The token "newer" rule (claims C1, C2) -/

/-- Claim C1, counterexample. The claim asserts that the relation used on
receipt satisfies `newer(5, 250) = false` and `newer(250, 5) = true`
(the rule `newer(a,b) ⟺ signed8(a − b) < 0`, here `newer_spec`), and that
the handler adopts the peer's token exactly when the peer's token is newer
under that rule. At local token 5 and peer token 250 the code's relation
gives the opposite values, and although `newer_spec` rates peer 250 newer
than local 5, the handler keeps token 5. -/
theorem token_newer_spec_counterexample :
    token_newer 5 250 = true ∧ token_newer 250 5 = false ∧
      newer_spec 250 5 = true ∧
      (tcpip_handler ⟨5, false, false, ttStart 16 10 2, [], []⟩ 250).token = 5 :=
  ⟨by decide, by decide, by decide, rfl⟩

/-- Claim C1, amended: `a` is newer than `b` exactly when `(b − a) mod 256`,
interpreted as a signed 8-bit value, is negative — so `newer(5, 250) = true`
and `newer(250, 5) = false` — and the receive handler adopts the peer's
token exactly when the peer's token differs from the local one and is newer
under this rule. -/
theorem token_newer_rule_adoption (n : TNode) (p : Nat) :
    (token_newer 5 250 = true ∧ token_newer 250 5 = false) ∧
      (tcpip_handler n p).token =
        (if p ≠ n.token ∧ token_newer p n.token then p else n.token) := by
  refine ⟨⟨by decide, by decide⟩, ?_⟩
  by_cases hc : p = n.token
  · subst hc
    cases hs : n.is_sink <;> simp [tcpip_handler, hs]
  · have hc2 : n.token ≠ p := fun h => hc h.symm
    by_cases hn : token_newer p n.token <;>
      cases hs : n.is_sink <;>
        simp [tcpip_handler, hs, hc, hc2, hn]

/-- Claim C2: for every received packet with peer token `p` while the local
token is `t`: if `p = t`, exactly a consistency signal is issued and the
token is unchanged; if `p ≠ t` and `p` is newer (serial-number rule of the
code, `token_newer`), the token becomes `p` and exactly an inconsistency
signal is issued; if `p ≠ t` and the local token is newer, exactly an
inconsistency signal is issued and the token is unchanged. -/
theorem tcpip_receive_cases (n : TNode) (p : Nat) :
    (p = n.token →
        (tcpip_handler n p).token = n.token ∧
        (tcpip_handler n p).signals = n.signals ++ [Sig.consistent]) ∧
    (p ≠ n.token → token_newer p n.token = true →
        (tcpip_handler n p).token = p ∧
        (tcpip_handler n p).signals = n.signals ++ [Sig.inconsistent]) ∧
    (p ≠ n.token → token_newer p n.token = false →
        (tcpip_handler n p).token = n.token ∧
        (tcpip_handler n p).signals = n.signals ++ [Sig.inconsistent]) := by
  refine ⟨fun h1 => ?_, fun h1 h2 => ?_, fun h1 h2 => ?_⟩
  · subst h1
    cases hs : n.is_sink <;> simp [tcpip_handler, hs]
  · have h3 : n.token ≠ p := fun h => h1 h.symm
    cases hs : n.is_sink <;> simp [tcpip_handler, hs, h3, h2]
  · have h3 : n.token ≠ p := fun h => h1 h.symm
    cases hs : n.is_sink <;> simp [tcpip_handler, hs, h3, h2]

/-- Witness for `tcpip_receive_cases` at local token 5 and peer token 7
(7 is one-newer than 5): the token is adopted and exactly one inconsistency
signal is issued. -/
theorem tcpip_receive_cases_witness :
    (tcpip_handler ⟨5, false, false, ttStart 16 10 2, [], []⟩ 7).token = 7 ∧
      (tcpip_handler ⟨5, false, false, ttStart 16 10 2, [], []⟩ 7).signals =
        [Sig.inconsistent] :=
  (tcpip_receive_cases ⟨5, false, false, ttStart 16 10 2, [], []⟩ 7).2.1
    (by decide) (by decide)

/-! ## Transmission callback policy (claim C9) -/

/-- Claim C9: the transmission callback sends a packet if and only if the
engine did not pass the suppress status and the operator suppression flag is
clear; and whenever a packet is sent, its payload is exactly the current
one-byte token. -/
theorem trickle_tx_policy (n : TNode) (suppressArg : Nat) :
    ((∃ payload, trickle_tx n suppressArg = some payload) ↔
        (suppressArg ≠ TRICKLE_TIMER_TX_SUPPRESS ∧ n.suppress_trickle = false)) ∧
      (trickle_tx n suppressArg ≠ none →
        trickle_tx n suppressArg = some n.token) := by
  by_cases h1 : suppressArg = TRICKLE_TIMER_TX_SUPPRESS <;>
    cases h2 : n.suppress_trickle <;>
      simp [trickle_tx, h1, h2]

/-- Witness for `trickle_tx_policy`: with status `TRICKLE_TIMER_TX_OK` and
suppression clear, the node with token 9 transmits payload 9. -/
theorem trickle_tx_policy_witness :
    trickle_tx ⟨9, false, false, ttStart 16 10 2, [], []⟩ TRICKLE_TIMER_TX_OK =
      some 9 :=
  (trickle_tx_policy ⟨9, false, false, ttStart 16 10 2, [], []⟩
    TRICKLE_TIMER_TX_OK).2 (by decide)

/-! ## The sink flag is protocol-inert (claim C10) -/

theorem obs_tcpip_congr {n1 n2 : TNode} (p : Nat) (h : obs n1 = obs n2) :
    obs (tcpip_handler n1 p) = obs (tcpip_handler n2 p) := by
  obtain ⟨t1, s1, u1, tt1, sg1, lg1⟩ := n1
  obtain ⟨t2, s2, u2, tt2, sg2, lg2⟩ := n2
  simp only [obs, Prod.mk.injEq] at h
  obtain ⟨ht, hu, htt, hsg⟩ := h
  subst ht; subst hu; subst htt; subst hsg
  by_cases hc : t1 = p <;>
    by_cases hn : token_newer p t1 <;>
      cases s1 <;> cases s2 <;>
        simp [tcpip_handler, obs, hc, hn]

theorem obs_foldl_congr :
    ∀ (ps : List Nat) {n1 n2 : TNode}, obs n1 = obs n2 →
      obs (ps.foldl tcpip_handler n1) = obs (ps.foldl tcpip_handler n2)
  | [], _, _, h => h
  | p :: ps, _, _, h => obs_foldl_congr ps (obs_tcpip_congr p h)

theorem trickle_tx_congr {n1 n2 : TNode} (suppressArg : Nat)
    (h : obs n1 = obs n2) :
    trickle_tx n1 suppressArg = trickle_tx n2 suppressArg := by
  obtain ⟨t1, s1, u1, tt1, sg1, lg1⟩ := n1
  obtain ⟨t2, s2, u2, tt2, sg2, lg2⟩ := n2
  simp only [obs, Prod.mk.injEq] at h
  obtain ⟨ht, hu, htt, hsg⟩ := h
  subst ht; subst hu
  rfl

/-- Claim C10: the sink role flag is protocol-inert in the trickle firmware.
Two runs over any sequence of received peer tokens that differ only in
`is_sink` agree on the whole protocol-visible state (`obs`: token, operator
suppression, engine state and the full consistency/inconsistency signal
trace), and their transmission callback behaves identically for every
engine status; only the log output can differ. -/
theorem sink_flag_noninterference (n : TNode) (b : Bool) (ps : List Nat) :
    obs (ps.foldl tcpip_handler { n with is_sink := b }) =
        obs (ps.foldl tcpip_handler n) ∧
      ∀ suppressArg,
        trickle_tx (ps.foldl tcpip_handler { n with is_sink := b }) suppressArg =
          trickle_tx (ps.foldl tcpip_handler n) suppressArg := by
  have h0 : obs { n with is_sink := b } = obs n := rfl
  have hf := obs_foldl_congr ps h0
  exact ⟨hf, fun suppressArg => trickle_tx_congr suppressArg hf⟩

/-! ## Serial `init` command (claim C4) -/

/-- Claim C4, evaluation at the failing input `init 10 16 2`. Because the
`if (seen_init)` block already runs in the very iteration that recognises
the word `init`, the word itself is consumed as the first number:
`i_max_doublings` becomes `strtol("init") = 0`, `i_min` becomes 10 (the
first numeric argument), the redundancy constant becomes 16 (the second),
and the trailing 2 is never consumed (the loop breaks). A subsequent
`set sink` hands exactly these misparsed values to `trickle_timer_config`.
The claim's reading — `i_max_doublings = 10`, `i_min = 16`, `k = 2` — is
what the command grammar `init <i_max_doublings> <i_min> <k>` intends. -/
theorem serial_init_misparse :
    (serial_handler initSNode 0 ["init", "10", "16", "2"]).imax = 0 ∧
      (serial_handler initSNode 0 ["init", "10", "16", "2"]).imin = 10 ∧
      (serial_handler initSNode 0 ["init", "10", "16", "2"]).redundancy_const = 16 ∧
      (serial_handler (serial_handler initSNode 0 ["init", "10", "16", "2"]) 3
          ["set", "sink"]).tt_imax = 0 ∧
      (serial_handler (serial_handler initSNode 0 ["init", "10", "16", "2"]) 3
          ["set", "sink"]).tt_imin = 10 ∧
      (serial_handler (serial_handler initSNode 0 ["init", "10", "16", "2"]) 3
          ["set", "sink"]).tt_k = 16 := by
  refine ⟨rfl, rfl, rfl, rfl, rfl, rfl⟩

/-! ## Serial `sleep` command and restart scheduling (claims C5, C6) -/

theorem serialTok_sleep (n : SNode) (w : String) (hw : 0 < strtol w) :
    serialTok n initSFlags ["sleep", w] =
      (n, { seen_sleep := true, seen_set := true, seen_init := false
            seen_imin := false, seen_imax := false, seen_cost := false
            seen_limit := false, seen_print := false, delay := strtol w }) := by
  have k1 : w ≠ "init" := by intro h; subst h; exact absurd hw (by decide)
  have k2 : w ≠ "limit" := by intro h; subst h; exact absurd hw (by decide)
  have k3 : w ≠ "print" := by intro h; subst h; exact absurd hw (by decide)
  have k4 : w ≠ "sleep" := by intro h; subst h; exact absurd hw (by decide)
  have k5 : w ≠ "set" := by intro h; subst h; exact absurd hw (by decide)
  have k6 : w ≠ "sink" := by intro h; subst h; exact absurd hw (by decide)
  have k7 : w ≠ "source" := by intro h; subst h; exact absurd hw (by decide)
  simp [serialTok, initSFlags, k1, k2, k3, k4, k5, k6, k7]

theorem serial_handler_sleep (n : SNode) (now : Int) (w : String)
    (hw : 0 < strtol w) :
    serial_handler n now ["sleep", w] =
      { n with
        radio_on := false
        rt := some (now + strtol w * CLOCK_SECOND)
        suppress_trickle := true
        reset_scheduled := true
        leds_all := true } := by
  unfold serial_handler
  rw [serialTok_sleep n w hw]
  simp [hw]

theorem rmhTok_sleep (m : RNode) (w : String) (hw : 0 < strtol w) :
    rmhTok m initRFlags ["sleep", w] = (m, ⟨true, false, strtol w⟩) := by
  have k3 : w ≠ "print" := by intro h; subst h; exact absurd hw (by decide)
  have k4 : w ≠ "sleep" := by intro h; subst h; exact absurd hw (by decide)
  simp [rmhTok, initRFlags, k3, k4]

theorem rmh_serial_handler_sleep (m : RNode) (now : Int) (w : String)
    (hw : 0 < strtol w) :
    rmh_serial_handler m now ["sleep", w] = reset now (strtol w) m := by
  unfold rmh_serial_handler
  rw [rmhTok_sleep m w hw]
  simp [hw]

/-- Claim C5, counterexample. In the rmh firmware, processing `sleep 5` on a
node whose neighbor table is empty arms no restart timer and leaves the
radio on — the whole body of `reset` sits inside
`if(list_length(neighbor_table) > 0)` — contradicting the claim that the
timer is armed and the radio switched off irrespective of whether the
neighbor table is empty. -/
theorem rmh_sleep_empty_table_noop :
    (rmh_serial_handler ⟨[], false, true, true, true, none, none⟩ 0
        ["sleep", "5"]).rt = none ∧
      (rmh_serial_handler ⟨[], false, true, true, true, none, none⟩ 0
        ["sleep", "5"]).radio_on = true :=
  ⟨rfl, rfl⟩

/-- Claim C5, amended: whenever a `sleep d` command with `d > 0` is
processed, the trickle firmware switches the radio off, arms the one-shot
restart timer for `d` seconds from now, suppresses transmissions and marks
the reset as scheduled, irrespective of any other node state; the rmh
firmware does the same (additionally clearing the neighbor table) only when
the neighbor table is nonempty — with an empty neighbor table the command
leaves the rmh node completely unchanged. -/
theorem sleep_schedules_restart (s : SNode) (m : RNode) (now : Int)
    (w : String) (hw : 0 < strtol w) :
    ((serial_handler s now ["sleep", w]).rt =
          some (now + strtol w * CLOCK_SECOND) ∧
        (serial_handler s now ["sleep", w]).radio_on = false ∧
        (serial_handler s now ["sleep", w]).suppress_trickle = true ∧
        (serial_handler s now ["sleep", w]).reset_scheduled = true) ∧
      (m.neighbor_table ≠ [] →
        (rmh_serial_handler m now ["sleep", w]).rt =
            some (now + strtol w * CLOCK_SECOND) ∧
          (rmh_serial_handler m now ["sleep", w]).radio_on = false ∧
          (rmh_serial_handler m now ["sleep", w]).reset_scheduled = true ∧
          (rmh_serial_handler m now ["sleep", w]).neighbor_table = []) ∧
      (m.neighbor_table = [] → rmh_serial_handler m now ["sleep", w] = m) := by
  rw [serial_handler_sleep s now w hw, rmh_serial_handler_sleep m now w hw]
  refine ⟨⟨rfl, rfl, rfl, rfl⟩, fun hne => ?_, fun hemp => ?_⟩
  · have hlen : 0 < m.neighbor_table.length := List.length_pos.mpr hne
    rw [reset, if_pos hlen]
    exact ⟨rfl, rfl, rfl, rfl⟩
  · rw [reset, if_neg (by simp [hemp])]

/-- Witness for `sleep_schedules_restart`: `sleep 5` at time 0 arms the
restart timer at `5 * CLOCK_SECOND` in both firmwares (rmh node with one
neighbor). -/
theorem sleep_schedules_restart_witness :
    (serial_handler initSNode 0 ["sleep", "5"]).rt =
        some (0 + strtol ("5") * CLOCK_SECOND) ∧
      (rmh_serial_handler ⟨[((2, 0), 50)], false, true, true, true, none, none⟩
          0 ["sleep", "5"]).rt = some (0 + strtol ("5") * CLOCK_SECOND) :=
  ⟨(sleep_schedules_restart initSNode
      ⟨[((2, 0), 50)], false, true, true, true, none, none⟩ 0 ("5")
      (by decide)).1.1,
    ((sleep_schedules_restart initSNode
      ⟨[((2, 0), 50)], false, true, true, true, none, none⟩ 0 ("5")
      (by decide)).2.1 (by decide)).1⟩

/-- Claim C6, counterexample. In the rmh firmware: a node with one neighbor
gets `sleep 5` at time 0 (restart pending at `5 * CLOCK_SECOND`, table
cleared by `reset`), then `sleep 9` at time 7, well before the pending
restart fires. Because the table is now empty, the second command is a
no-op: the pending restart is *not* replaced and still fires at the
first-requested delay, not at `7 + 9 * CLOCK_SECOND` as the claim
requires. -/
theorem rmh_second_sleep_ignored :
    (rmh_serial_handler
        (rmh_serial_handler
          ⟨[((2, 0), 50)], false, true, true, true, none, none⟩ 0
          ["sleep", "5"]) 7 ["sleep", "9"]).rt =
        some (0 + 5 * CLOCK_SECOND) ∧
      (0 + 5 * CLOCK_SECOND : Int) ≠ 7 + 9 * CLOCK_SECOND :=
  ⟨rfl, by decide⟩

/-- Claim C6, amended: in the trickle firmware a second `sleep` command
before the pending restart fires cancels and replaces the earlier request —
the single restart etimer is re-armed, so exactly one reset is pending, at
the delay requested by the second command. In the rmh firmware the first
`sleep` empties the neighbor table, so a second `sleep` issued before the
restart fires is ignored and the single pending reset stays at the delay
requested by the first command. -/
theorem restart_last_wins (s : SNode) (m : RNode) (t1 t2 : Int)
    (w1 w2 : String) (h1 : 0 < strtol w1) (h2 : 0 < strtol w2) :
    ((serial_handler (serial_handler s t1 ["sleep", w1]) t2
          ["sleep", w2]).rt = some (t2 + strtol w2 * CLOCK_SECOND) ∧
        (serial_handler (serial_handler s t1 ["sleep", w1]) t2
          ["sleep", w2]).reset_scheduled = true) ∧
      (m.neighbor_table ≠ [] →
        (rmh_serial_handler m t1 ["sleep", w1]).neighbor_table = [] ∧
          (rmh_serial_handler (rmh_serial_handler m t1 ["sleep", w1]) t2
            ["sleep", w2]).rt = some (t1 + strtol w1 * CLOCK_SECOND)) := by
  rw [serial_handler_sleep _ t1 w1 h1, serial_handler_sleep _ t2 w2 h2,
    rmh_serial_handler_sleep m t1 w1 h1]
  refine ⟨⟨rfl, rfl⟩, fun hne => ?_⟩
  have hlen : 0 < m.neighbor_table.length := List.length_pos.mpr hne
  rw [reset, if_pos hlen,
    rmh_serial_handler_sleep _ t2 w2 h2, reset, if_neg (by simp)]
  exact ⟨rfl, rfl⟩

/-- Witness for `restart_last_wins`: trickle gets `sleep 5` at time 0 then
`sleep 9` at time 7 and ends with the restart pending at
`7 + 9 * CLOCK_SECOND`; the rmh node with one neighbor keeps its restart at
`0 + 5 * CLOCK_SECOND`. -/
theorem restart_last_wins_witness :
    (serial_handler (serial_handler initSNode 0 ["sleep", "5"]) 7
        ["sleep", "9"]).rt = some (7 + strtol ("9") * CLOCK_SECOND) ∧
      (rmh_serial_handler
          (rmh_serial_handler
            ⟨[((2, 0), 50)], false, true, true, true, none, none⟩ 0
            ["sleep", "5"]) 7 ["sleep", "9"]).rt =
        some (0 + strtol ("5") * CLOCK_SECOND) :=
  ⟨(restart_last_wins initSNode
      ⟨[((2, 0), 50)], false, true, true, true, none, none⟩ 0 7 ("5") ("9")
      (by decide) (by decide)).1.1,
    ((restart_last_wins initSNode
      ⟨[((2, 0), 50)], false, true, true, true, none, none⟩ 0 7 ("5") ("9")
      (by decide) (by decide)).2 (by decide)).2⟩

/-! ## Neighbor announcements (claim C7) -/

theorem refreshLoop_none_iff (t : List (Addr × Int)) (src : Addr) (exp : Int) :
    refreshLoop t src exp = none ↔ src ∉ t.map Prod.fst := by
  induction t with
  | nil => simp [refreshLoop]
  | cons e rest ih =>
    rw [refreshLoop]
    by_cases he : e.1 = src
    · rw [if_pos he]
      simp [he]
    · rw [if_neg he]
      have hsrc : ¬ src = e.1 := fun h => he h.symm
      rcases hr : refreshLoop rest src exp with _ | r
      · simp [hsrc, ih.mp hr]
      · have hmem : src ∈ List.map Prod.fst rest := by
          by_contra hn
          rw [ih.mpr hn] at hr
          cases hr
        simp [hmem]

theorem refreshLoop_some_spec (t : List (Addr × Int)) (src : Addr) (exp : Int)
    (r : List (Addr × Int)) (h : refreshLoop t src exp = some r) :
    r.map Prod.fst = t.map Prod.fst ∧ (src, exp) ∈ r ∧
      ∀ e ∈ r, e.1 ≠ src → e ∈ t := by
  induction t generalizing r with
  | nil => simp [refreshLoop] at h
  | cons e rest ih =>
    rw [refreshLoop] at h
    by_cases he : e.1 = src
    · rw [if_pos he] at h
      injection h with h
      subst h
      refine ⟨by simp, by simp [he], ?_⟩
      intro x hx hne
      rw [List.mem_cons] at hx
      rcases hx with hx | hx
      · refine absurd ?_ hne
        rw [hx]
        exact he
      · exact List.mem_cons_of_mem _ hx
    · rw [if_neg he] at h
      rcases hr : refreshLoop rest src exp with _ | r0 <;> rw [hr] at h
      · cases h
      · injection h with h
        subst h
        obtain ⟨m1, m2, m3⟩ := ih r0 hr
        refine ⟨by simp [m1], List.mem_cons_of_mem _ m2, ?_⟩
        intro x hx hne
        rw [List.mem_cons] at hx
        rcases hx with hx | hx
        · rw [hx]
          exact List.mem_cons_self _ _
        · exact List.mem_cons_of_mem _ (m3 x hx hne)

/-- Claim C7: for an announcement from address `src` at time `now`:
if `src` is already in the table, only that entry's expiry timer is
refreshed — the set of addresses is unchanged (no duplicate entry), the
refreshed entry carries the fresh expiry `now + NEIGHBOR_TIMEOUT`, and every
entry for a different address is kept as it was; if `src` is absent and the
16-entry pool has a free slot, `src` is appended with a fresh expiry timer;
if `src` is absent and the pool is exhausted, the table is unchanged. In
every case the handler returns normally — no error is surfaced. -/
theorem announcement_table_update (t : List (Addr × Int)) (now : Int)
    (src : Addr) :
    (src ∈ t.map Prod.fst →
        (received_announcement now src t).map Prod.fst = t.map Prod.fst ∧
          (src, now + NEIGHBOR_TIMEOUT) ∈ received_announcement now src t ∧
          ∀ e ∈ received_announcement now src t, e.1 ≠ src → e ∈ t) ∧
      (src ∉ t.map Prod.fst → t.length < MAX_NEIGHBORS →
        received_announcement now src t =
          t ++ [(src, now + NEIGHBOR_TIMEOUT)]) ∧
      (src ∉ t.map Prod.fst → MAX_NEIGHBORS ≤ t.length →
        received_announcement now src t = t) := by
  unfold received_announcement
  rcases hr : refreshLoop t src (now + NEIGHBOR_TIMEOUT) with _ | r
  · have hni := (refreshLoop_none_iff t src (now + NEIGHBOR_TIMEOUT)).mp hr
    refine ⟨fun hmem => absurd hmem hni, fun _ hlen => by rw [if_pos hlen],
      fun _ hlen => by rw [if_neg (by omega)]⟩
  · have hmem : src ∈ t.map Prod.fst := by
      by_contra hn
      rw [(refreshLoop_none_iff t src (now + NEIGHBOR_TIMEOUT)).mpr hn] at hr
      cases hr
    obtain ⟨m1, m2, m3⟩ := refreshLoop_some_spec t src _ r hr
    exact ⟨fun _ => ⟨m1, m2, m3⟩, fun hn _ => absurd hmem hn,
      fun hn _ => absurd hmem hn⟩

/-- Witness for `announcement_table_update`, exercising all three cases:
a refresh on `[(1,0)]` from `(1,0)`, an insertion from `(3,0)` into a
one-entry table, and a silent drop from `(9,9)` on a full 16-entry table. -/
theorem announcement_table_update_witness :
    (received_announcement 0 ((1 : Nat), (0 : Nat))
          [(((1 : Nat), (0 : Nat)), (100 : Int))]).map Prod.fst =
        [((1 : Nat), (0 : Nat))] ∧
      received_announcement 0 ((3 : Nat), (0 : Nat))
          [(((1 : Nat), (0 : Nat)), (100 : Int))] =
        [(((1 : Nat), (0 : Nat)), (100 : Int)),
          (((3 : Nat), (0 : Nat)), 0 + NEIGHBOR_TIMEOUT)] ∧
      received_announcement 0 ((9 : Nat), (9 : Nat))
          ((List.range 16).map (fun i => ((i, 0), (5 : Int)))) =
        (List.range 16).map (fun i => ((i, 0), (5 : Int))) :=
  ⟨((announcement_table_update [(((1 : Nat), (0 : Nat)), (100 : Int))] 0
      ((1 : Nat), (0 : Nat))).1 (by decide)).1,
    (announcement_table_update [(((1 : Nat), (0 : Nat)), (100 : Int))] 0
      ((3 : Nat), (0 : Nat))).2.1 (by decide) (by decide),
    (announcement_table_update ((List.range 16).map (fun i => ((i, 0), (5 : Int))))
      0 ((9 : Nat), (9 : Nat))).2.2 (by decide) (by decide)⟩

/-! ## Random forwarding (claim C8) -/

theorem walkTo_get? : ∀ (t : List (Addr × Int)) (i : Nat), walkTo t i = t.get? i
  | [], i => by cases i <;> rfl
  | _ :: _, 0 => rfl
  | _ :: rest, i + 1 => walkTo_get? rest i

theorem forward_eq_get? (t : List (Addr × Int)) (r : Nat) :
    forward t r = (t.get? (r % t.length)).map Prod.fst := by
  unfold forward
  by_cases h : 0 < t.length
  · rw [if_pos h, walkTo_get?]
    rcases t.get? (r % t.length) with _ | e <;> rfl
  · rw [if_neg h]
    have h0 : t.length = 0 := by omega
    rw [List.length_eq_zero] at h0
    subst h0
    rfl

theorem forward_none_iff (t : List (Addr × Int)) (r : Nat) :
    forward t r = none ↔ t = [] := by
  rw [forward_eq_get?]
  constructor
  · intro h
    by_contra hne
    have hl : 0 < t.length := List.length_pos.mpr hne
    have hlt : r % t.length < t.length := Nat.mod_lt r hl
    rw [List.get?_eq_get hlt] at h
    simp at h
  · intro h
    subst h
    rfl

theorem nodup_get?_unique {α : Type} {l : List α} (h : l.Nodup) {i k : Nat}
    {a : α} (ha : l.get? i = some a) (hk : l.get? k = some a) : k = i := by
  obtain ⟨hil, hig⟩ := List.get?_eq_some.mp ha
  obtain ⟨hkl, hkg⟩ := List.get?_eq_some.mp hk
  have heq : l.get ⟨k, hkl⟩ = l.get ⟨i, hil⟩ := by rw [hig, hkg]
  have hfin := (List.Nodup.get_inj_iff h).mp heq
  simpa using congrArg Fin.val hfin

theorem modCount_closed (n k : Nat) (hn : 0 < n) (hk : k < n) :
    ∀ m, modCount n k m = m / n + (if k < m % n then 1 else 0) := by
  intro m
  induction m with
  | zero => simp [modCount]
  | succ m ih =>
    simp only [modCount, ih]
    have hdm := Nat.div_add_mod m n
    rcases Nat.lt_or_ge (m % n + 1) n with h | h
    · have e12 : (m + 1) / n = m / n ∧ (m + 1) % n = m % n + 1 := by
        rw [Nat.div_mod_unique hn]
        exact ⟨by omega, h⟩
      rw [e12.1, e12.2]
      split_ifs <;> omega
    · have hlt : m % n < n := Nat.mod_lt m hn
      have e12 : (m + 1) / n = m / n + 1 ∧ (m + 1) % n = 0 := by
        rw [Nat.div_mod_unique hn]
        have hms : n * (m / n + 1) = n * (m / n) + n := by ring
        exact ⟨by omega, hn⟩
      rw [e12.1, e12.2]
      split_ifs <;> omega

theorem selCount_eq_modCount (t : List (Addr × Int))
    (hnd : (t.map Prod.fst).Nodup) (i : Nat) (a : Addr)
    (ha : (t.map Prod.fst).get? i = some a) :
    ∀ m, selCount t a m = modCount t.length i m := by
  have hi : i < t.length := by
    obtain ⟨hlen, _⟩ := List.get?_eq_some.mp ha
    simpa using hlen
  intro m
  induction m with
  | zero => rfl
  | succ m ih =>
    simp only [selCount, modCount, ih]
    have hfwd : forward t m = (t.map Prod.fst).get? (m % t.length) := by
      rw [forward_eq_get?, List.get?_map]
    have hcond : (forward t m = some a) ↔ (m % t.length = i) := by
      rw [hfwd]
      constructor
      · intro h
        exact nodup_get?_unique hnd ha h
      · intro h
        rw [h]
        exact ha
    simp only [hcond]

/-- Claim C8, counterexample. `random_rand()` is a uniform 16-bit value, so
selection counts over its 65536 possible values measure each entry's
selection probability. With three live neighbors the entry at index 0 is
selected for 21846 of the 65536 values while the entry at index 1 is
selected for 21845 — the `% 3` of a uniform 16-bit value is biased, so the
claimed equal selection probability for every live entry fails. -/
theorem forward_uniformity_counterexample :
    selCount
        [(((1 : Nat), (0 : Nat)), (0 : Int)), (((2 : Nat), (0 : Nat)), 0),
          (((3 : Nat), (0 : Nat)), 0)] ((1 : Nat), (0 : Nat)) 65536 ≠
      selCount
        [(((1 : Nat), (0 : Nat)), (0 : Int)), (((2 : Nat), (0 : Nat)), 0),
          (((3 : Nat), (0 : Nat)), 0)] ((2 : Nat), (0 : Nat)) 65536 := by
  have e1 :
      selCount
        [(((1 : Nat), (0 : Nat)), (0 : Int)), (((2 : Nat), (0 : Nat)), 0),
          (((3 : Nat), (0 : Nat)), 0)] ((1 : Nat), (0 : Nat)) 65536 =
      modCount 3 0 65536 := by
    simpa using selCount_eq_modCount
      [(((1 : Nat), (0 : Nat)), (0 : Int)), (((2 : Nat), (0 : Nat)), 0),
        (((3 : Nat), (0 : Nat)), 0)] (by decide) 0 ((1 : Nat), (0 : Nat))
      (by decide) 65536
  have e2 :
      selCount
        [(((1 : Nat), (0 : Nat)), (0 : Int)), (((2 : Nat), (0 : Nat)), 0),
          (((3 : Nat), (0 : Nat)), 0)] ((2 : Nat), (0 : Nat)) 65536 =
      modCount 3 1 65536 := by
    simpa using selCount_eq_modCount
      [(((1 : Nat), (0 : Nat)), (0 : Int)), (((2 : Nat), (0 : Nat)), 0),
        (((3 : Nat), (0 : Nat)), 0)] (by decide) 1 ((2 : Nat), (0 : Nat))
      (by decide) 65536
  rw [e1, e2, modCount_closed 3 0 (by decide) (by decide),
    modCount_closed 3 1 (by decide) (by decide)]
  decide

/-- Claim C8, amended: `forward` returns `NULL` (packet dropped, no error)
if and only if the neighbor table is empty; otherwise it returns the address
of the live entry at index `random_rand() mod table-length`, so selection
depends only on an entry's position. Over the uniform 16-bit range of
`random_rand()` the per-entry selection counts differ by at most one, and
are exactly equal whenever the table length divides 2^16 (in particular for
power-of-two table sizes) — but not in general. -/
theorem forward_characterization (t : List (Addr × Int)) (r i j : Nat)
    (ai aj : Addr) (hnd : (t.map Prod.fst).Nodup)
    (hi : (t.map Prod.fst).get? i = some ai)
    (hj : (t.map Prod.fst).get? j = some aj) :
    (forward t r = none ↔ t = []) ∧
      forward t r = (t.get? (r % t.length)).map Prod.fst ∧
      selCount t ai 65536 ≤ selCount t aj 65536 + 1 ∧
      (t.length ∣ 65536 → selCount t ai 65536 = selCount t aj 65536) := by
  have hi2 : i < t.length := by
    obtain ⟨h, _⟩ := List.get?_eq_some.mp hi
    simpa using h
  have hj2 : j < t.length := by
    obtain ⟨h, _⟩ := List.get?_eq_some.mp hj
    simpa using h
  have hn : 0 < t.length := Nat.lt_of_le_of_lt (Nat.zero_le i) hi2
  rw [selCount_eq_modCount t hnd i ai hi, selCount_eq_modCount t hnd j aj hj,
    modCount_closed t.length i hn hi2, modCount_closed t.length j hn hj2]
  refine ⟨forward_none_iff t r, forward_eq_get? t r, ?_, ?_⟩
  · split_ifs <;> omega
  · intro hd
    have h0 : 65536 % t.length = 0 := Nat.dvd_iff_mod_eq_zero.mp hd
    rw [h0]
    simp [Nat.not_lt_zero]

/-- Witness for `forward_characterization` on a two-entry table with
`random_rand() = 5`: the drop condition, the index characterisation, and —
since 2 divides 2^16 — exactly equal selection counts. -/
theorem forward_characterization_witness :
    (forward [(((1 : Nat), (0 : Nat)), (0 : Int)),
        (((2 : Nat), (0 : Nat)), 0)] 5 = none ↔
      [(((1 : Nat), (0 : Nat)), (0 : Int)), (((2 : Nat), (0 : Nat)), 0)] = []) ∧
      forward [(((1 : Nat), (0 : Nat)), (0 : Int)),
          (((2 : Nat), (0 : Nat)), 0)] 5 =
        ([(((1 : Nat), (0 : Nat)), (0 : Int)),
          (((2 : Nat), (0 : Nat)), 0)].get?
          (5 % [(((1 : Nat), (0 : Nat)), (0 : Int)),
            (((2 : Nat), (0 : Nat)), 0)].length)).map Prod.fst ∧
      selCount [(((1 : Nat), (0 : Nat)), (0 : Int)),
          (((2 : Nat), (0 : Nat)), 0)] ((1 : Nat), (0 : Nat)) 65536 =
        selCount [(((1 : Nat), (0 : Nat)), (0 : Int)),
          (((2 : Nat), (0 : Nat)), 0)] ((2 : Nat), (0 : Nat)) 65536 := by
  have h := forward_characterization
    [(((1 : Nat), (0 : Nat)), (0 : Int)), (((2 : Nat), (0 : Nat)), 0)] 5 0 1
    ((1 : Nat), (0 : Nat)) ((2 : Nat), (0 : Nat)) (by decide) (by decide)
    (by decide)
  exact ⟨h.1, h.2.1, h.2.2.2 (by decide)⟩

end Tpwsn
